import Mathlib

/-
Verification of the prediction-scoring pipeline of edgefinder-pro.

The definitions below are a shallow embedding of
`src/betting_app/analysis/pipeline.py` (`AnalysisPipeline.run` and
`AnalysisPipeline._group_odds`), of `src/betting_app/scrapers/history_fetcher.py`
(`HistoricalFetcher.get_team_stats`) and of the failure default of
`src/betting_app/scrapers/injury_fetcher.py`.  Python floats are modelled as
rationals, datetimes as integers, dict keys that the code reads with `.get`
as `Option` fields and external fetchers as an oracle record of functions.
Randomness (`random.uniform`, `random.randint`) is modelled by passing the
drawn values as explicit arguments.
-/

namespace EdgeFinder

/-- One raw odds record as produced by a scraper's `fetch_odds` and consumed by
`_group_odds` / the per-group loop of `AnalysisPipeline.run`.  Fields the code
reads with `.get` (and which may therefore be absent) are `Option`s. -/
structure RawItem where
  fixture_name : String
  market_type : Option String
  selection : String
  price : Option ℚ
  point : Option ℚ
  bookmaker : String
  sport : String
  league : String
  home_team : String
  away_team : String
  start_time : ℤ
  record : Option String
  headlines : Option (List String)
deriving DecidableEq

/-- Result shape of `HistoricalFetcher.get_team_stats` as read by the pipeline. -/
structure HistStats where
  win_rate : ℚ
  form_desc : String
deriving DecidableEq

/-- Result shape of `SentimentFetcher.analyze_sentiment` as read by the pipeline. -/
structure SentimentResult where
  sentiment_score : ℚ
deriving DecidableEq

/-- `betting_trends` sub-dict of the expert analysis. -/
structure BettingTrends where
  public_betting_percentage : ℚ
  expert_consensus : ℚ
  sharp_money : String
  trend_strength : String
deriving DecidableEq

/-- `form_analysis` sub-dict of the expert analysis (fields the pipeline reads). -/
structure FormAnalysis where
  current_form : String
  last_5_games : String
  momentum : String
deriving DecidableEq

/-- `h2h_analysis` sub-dict of the expert analysis (field the pipeline reads). -/
structure H2HAnalysis where
  home_field_advantage : ℚ
deriving DecidableEq

/-- One entry of `injury_analysis["injured_players"]`; the `name` key is
optional (the pipeline tests `"name" in player_info`). -/
structure InjuredPlayer where
  name : Option String
  position : String
  status : String
  injury : String
deriving DecidableEq

/-- `injury_analysis` sub-dict of the expert analysis (fields the pipeline reads). -/
structure InjuryAnalysis where
  impact : String
  injured_players : List InjuredPlayer
deriving DecidableEq

/-- Result shape of `ExpertAnalysisFetcher.get_comprehensive_analysis`. -/
structure ExpertAnalysis where
  confidence_score : ℚ
  reasoning_points : List String
  betting_trends : BettingTrends
  form_analysis : FormAnalysis
  h2h_analysis : H2HAnalysis
  injury_analysis : InjuryAnalysis
  sources_consulted : List String
deriving DecidableEq

/-- Result shape of `TeamStatsFetcher.get_team_stats`; numeric fields the
pipeline reads with `.get(_, 0)` are modelled as always-present rationals. -/
structure TeamStatsInfo where
  available : Bool
  points_per_game : ℚ
  total_yards_per_game : ℚ
  passing_yards_per_game : ℚ
  rushing_yards_per_game : ℚ
  points_against_per_game : ℚ
  field_goal_pct : ℚ
  three_point_pct : ℚ
  assists_per_game : ℚ
  rebounds_per_game : ℚ
deriving DecidableEq

/-- Result shape of `WeatherFetcher.get_game_weather` (fields the pipeline reads). -/
structure WeatherInfo where
  available : Bool
  indoor : Bool
  stadium : String
  conditions : String
  impact : String
  temperature : String
  wind_description : Option String
deriving DecidableEq

/-- One entry of `PlayerStatsFetcher.get_top_players`. -/
structure PlayerInfo where
  name : String
  jersey : Option String
  position : String
  stat_desc : Option String
deriving DecidableEq

/-- The external fetchers the pipeline awaits, abstracted as pure functions
(spec section 2 treats them as external collaborators).  `teamStats` models
`history_fetchers[sport].get_team_stats(team, record)`, `sentiment` models
`sentiment_fetchers[sport].analyze_sentiment(fixture_name, headlines)`,
`expert` models `expert_analyzer.get_comprehensive_analysis(team, opponent,
sport, record, is_home)`, `espnStats` models
`team_stats_fetcher.get_team_stats(team, sport)`, `weather` models
`weather_fetcher.get_game_weather(home_team, start_time)` and `topPlayers`
models `player_stats_fetcher.get_top_players(team, sport, limit)`. -/
structure Oracle where
  teamStats : String → Option String → HistStats
  sentiment : String → List String → SentimentResult
  expert : String → String → String → Option String → Bool → ExpertAnalysis
  espnStats : String → String → TeamStatsInfo
  weather : String → ℤ → WeatherInfo
  topPlayers : String → String → ℕ → List PlayerInfo

/-- Python truthiness of an optional float (`None` and `0.0` are falsy). -/
def pyTruthy (x : Option ℚ) : Bool :=
  match x with
  | none => false
  | some b => b ≠ 0

/-- Line 109: `all_prices = [item.get("price") for item in items if item.get("price")]`. -/
def allPricesOf (items : List RawItem) : List ℚ :=
  (items.filterMap (fun it => it.price)).filter (fun p => p ≠ 0)

/-- Line 110: `best_price = max(all_prices) if all_prices else None`. -/
def bestPriceOf (items : List RawItem) : Option ℚ :=
  match allPricesOf items with
  | [] => none
  | p :: ps => some (ps.foldl max p)

/-- Line 111: `avg_price = sum(all_prices) / len(all_prices) if all_prices else None`. -/
def avgPriceOf (items : List RawItem) : Option ℚ :=
  match allPricesOf items with
  | [] => none
  | p :: ps => some ((p :: ps).sum / (p :: ps).length)

/-- Line 112: first bookmaker whose price equals the best price, else "Unknown". -/
def bestBookmakerOf (items : List RawItem) : String :=
  ((items.find? (fun it => decide (it.price = bestPriceOf items))).map
    (fun it => it.bookmaker)).getD "Unknown"

/-- Line 125: `is_home = (first_item["selection"] == first_item["home_team"])`. -/
def isHomeOf (first : RawItem) : Bool :=
  first.selection == first.home_team

/-- Line 126: `opponent = away_team if is_home else home_team`. -/
def opponentOf (first : RawItem) : String :=
  if isHomeOf first then first.away_team else first.home_team

/-- Lines 115-118: the historical stats fetch for the group's team. -/
def histOf (o : Oracle) (first : RawItem) : HistStats :=
  o.teamStats first.selection first.record

/-- Lines 120-122: the sentiment fetch on the first item's headlines. -/
def sentScoreOf (o : Oracle) (first : RawItem) : ℚ :=
  (o.sentiment first.fixture_name (first.headlines.getD [])).sentiment_score

/-- Lines 128-134: the comprehensive expert analysis fetch. -/
def expertOf (o : Oracle) (sport : String) (first : RawItem) : ExpertAnalysis :=
  o.expert first.selection (opponentOf first) sport first.record (isHomeOf first)

/-- Lines 157-170: base probability, with Bradley-Terry normalisation for
`market_type == "h2h"` (the opponent's stats are fetched with no record). -/
def baseProbOf (o : Oracle) (first : RawItem) : ℚ :=
  let win_rate := (histOf o first).win_rate
  if first.market_type = some "h2h" then
    let opp_win_rate := (o.teamStats (opponentOf first) none).win_rate
    let total_strength := win_rate + opp_win_rate
    if total_strength > 0 then win_rate / total_strength else 1/2
  else win_rate

/-- Line 182: `true_prob = max(0.01, min(0.99, true_prob))`. -/
def clamp01 (x : ℚ) : ℚ := max (1/100) (min (99/100) x)

/-- Lines 172-182: the adjusted, clamped true probability. -/
def trueProbOf (o : Oracle) (sport : String) (first : RawItem) : ℚ :=
  let base_prob := baseProbOf o first
  let sentiment_adj := sentScoreOf o first * (5/100)
  let ea := expertOf o sport first
  let expert_adj := (ea.confidence_score / 100) * (15/100)
  let home_adj :=
    if isHomeOf first ∧ ea.h2h_analysis.home_field_advantage > 50 then
      (ea.h2h_analysis.home_field_advantage - 50) / 1000
    else 0
  clamp01 (base_prob + sentiment_adj + expert_adj + home_adj)

/-- Lines 184-195: the data-quality gate.  `none` means the group is discarded
(`continue`); `some v` is the value score used afterwards (0.0 when no price). -/
def valueGate (true_prob : ℚ) (best_price : Option ℚ) : Option ℚ :=
  match best_price with
  | none => some 0
  | some bp =>
    if bp < 101/100 ∨ bp > 50 then none
    else
      let v := true_prob * bp - 1
      if v > 2 then none else some v

/-- Lines 301-313: confidence tier. -/
def confidenceOf (best_price : Option ℚ) (value true_prob : ℚ) : String :=
  match best_price with
  | some _ =>
    if value > 12/100 ∧ true_prob > 45/100 then "High"
    else if value > 5/100 ∧ true_prob > 40/100 then "Medium"
    else "Low"
  | none =>
    if true_prob > 65/100 then "High"
    else if true_prob > 1/2 then "Medium"
    else "Low"

/-- Lines 324, 343, 354: `value > 0.03 if best_price else true_prob > 0.55`
(Python truthiness on `best_price`). -/
def recommendedOf (best_price : Option ℚ) (value true_prob : ℚ) : Bool :=
  if pyTruthy best_price then decide (value > 3/100) else decide (true_prob > 55/100)

/-- One line of the rationale text built in lines 197-299.  String rendering
and number formatting are presentation; each constructor records exactly the
data the corresponding f-string interpolates, in source order. -/
inductive RLine where
  | header (selection : String) (record : Option String)
  | probOdds (true_prob : ℚ) (best : Option ℚ) (bookmaker : String)
  | probOddsMulti (true_prob : ℚ) (best : Option ℚ) (bookmaker : String)
  | avgOdds (avg : ℚ) (n : ℕ)
  | trendsHeader
  | publicBetting (pct : ℚ)
  | expertConsensus (pct : ℚ) (strength : String)
  | sharpMoney (s : String)
  | analysisHeader
  | analysisPoint (p : String)
  | recentForm (form l5 : String)
  | momentumLine (m : String)
  | injuryHeader (n : ℕ)
  | injuryPlayer (name : Option String) (position injury : String)
  | teamStatsHeader
  | nflOffense (ppg ypg : ℚ)
  | nflPassing (passYpg rushYpg : ℚ)
  | nflDefense (papg : ℚ)
  | nbaOffense (ppg fg : ℚ)
  | nbaThree (tp apg : ℚ)
  | nbaRebounds (rpg : ℚ)
  | weatherHeader (stadium : String)
  | weatherIndoor (conditions impact : String)
  | weatherTemp (temp : String) (wind : Option String)
  | weatherCond (c : String)
  | weatherImpact (i : String)
  | keyPlayersHeader
  | keyPlayer (name : String) (jersey : Option String) (position : String)
      (statDesc : Option String)
  | valueStrong (v : ℚ)
  | valuePositive (v : ℚ)
  | valueNoEdge (v : ℚ)
  | headlinesHeader (n : ℕ)
  | headlineLine (h : String)
  | sentimentScoreLine (s : ℚ)
  | sourcesLine (ss : List String)
deriving DecidableEq

/-- Lines 197-299: the reasoning composition, one `RLine` per appended line
group, following the source's conditionals exactly. -/
def buildReasoning (sport : String) (first : RawItem) (nItems : ℕ)
    (best avg : Option ℚ) (bestBook : String) (true_prob value sent_score : ℚ)
    (ea : ExpertAnalysis) (ts : TeamStatsInfo) (wd : Option WeatherInfo)
    (key_players : List PlayerInfo) (headlines : List String) : List RLine :=
  let l1 : List RLine := [.header first.selection first.record]
  let l2 : List RLine :=
    match avg with
    | some a =>
      if nItems > 1 ∧ a ≠ 0 then
        [.probOddsMulti true_prob best bestBook, .avgOdds a nItems]
      else [.probOdds true_prob best bestBook]
    | none => [.probOdds true_prob best bestBook]
  let l3 : List RLine :=
    [.trendsHeader,
     .publicBetting ea.betting_trends.public_betting_percentage,
     .expertConsensus ea.betting_trends.expert_consensus ea.betting_trends.trend_strength,
     .sharpMoney ea.betting_trends.sharp_money,
     .analysisHeader]
  let l4 : List RLine := (ea.reasoning_points.take 4).map .analysisPoint
  let l5 : List RLine :=
    [.recentForm ea.form_analysis.current_form ea.form_analysis.last_5_games,
     .momentumLine ea.form_analysis.momentum]
  let out_players := ea.injury_analysis.injured_players.filter (fun p => p.status = "OUT")
  let l6 : List RLine :=
    if ea.injury_analysis.impact ≠ "Minimal" ∧ out_players ≠ [] then
      .injuryHeader out_players.length ::
        out_players.map (fun p => .injuryPlayer p.name p.position p.injury)
    else []
  let l7 : List RLine :=
    if ts.available then
      .teamStatsHeader ::
        (if sport = "NFL" then
          (if ts.points_per_game > 0 then
            [.nflOffense ts.points_per_game ts.total_yards_per_game,
             .nflPassing ts.passing_yards_per_game ts.rushing_yards_per_game]
          else []) ++
          (if ts.points_against_per_game > 0 then
            [.nflDefense ts.points_against_per_game]
          else [])
        else if sport = "NBA" then
          (if ts.points_per_game > 0 then
            [.nbaOffense ts.points_per_game ts.field_goal_pct,
             .nbaThree ts.three_point_pct ts.assists_per_game,
             .nbaRebounds ts.rebounds_per_game]
          else [])
        else [])
    else []
  let l8 : List RLine :=
    match wd with
    | some w =>
      if w.available then
        .weatherHeader w.stadium ::
          (if w.indoor then [.weatherIndoor w.conditions w.impact]
           else [.weatherTemp w.temperature w.wind_description,
                 .weatherCond w.conditions,
                 .weatherImpact w.impact])
      else []
    | none => []
  let l9 : List RLine :=
    if key_players ≠ [] then
      .keyPlayersHeader ::
        key_players.map (fun p => .keyPlayer p.name p.jersey p.position p.stat_desc)
    else []
  let l10 : List RLine :=
    match best with
    | some _ =>
      if value > 1/10 then [.valueStrong value]
      else if value > 0 then [.valuePositive value]
      else [.valueNoEdge value]
    | none => []
  let l11 : List RLine :=
    if headlines ≠ [] then
      (.headlinesHeader headlines.length :: (headlines.take 2).map .headlineLine)
        ++ [.sentimentScoreLine sent_score]
    else []
  let l12 : List RLine := [.sourcesLine (ea.sources_consulted.take 3)]
  l1 ++ l2 ++ l3 ++ l4 ++ l5 ++ l6 ++ l7 ++ l8 ++ l9 ++ l10 ++ l11 ++ l12

/-- The five value fields of a Prediction row as computed for one group. -/
structure PredVals where
  model_probability : ℚ
  value_score : ℚ
  confidence_level : String
  reasoning : List RLine
  is_recommended : Bool
deriving DecidableEq

/-- The pure per-group computation of `AnalysisPipeline.run` (lines 108-134,
157-324): everything that determines the Prediction's value fields.  `none`
models the two `continue` statements that discard the group (lines 188-189,
194-195). -/
def analyzeValues (o : Oracle) (sport : String) (first : RawItem)
    (items : List RawItem) : Option PredVals :=
  let best := bestPriceOf items
  let true_prob := trueProbOf o sport first
  match valueGate true_prob best with
  | none => none
  | some value =>
    let avg := avgPriceOf items
    let bestBook := bestBookmakerOf items
    let ea := expertOf o sport first
    let ts := o.espnStats first.selection sport
    let wd : Option WeatherInfo :=
      if sport = "NFL" then some (o.weather first.home_team first.start_time) else none
    let key_players := o.topPlayers first.selection sport 3
    let headlines := first.headlines.getD []
    let sent_score := sentScoreOf o first
    some
      { model_probability := true_prob
        value_score := value
        confidence_level := confidenceOf best value true_prob
        reasoning := buildReasoning sport first items.length best avg bestBook
          true_prob value sent_score ea ts wd key_players headlines
        is_recommended := recommendedOf best value true_prob }

/-- A row of the `fixtures` table (fields the pipeline writes; ids are ℕ). -/
structure FixtureRow where
  id : ℕ
  fixture_name : String
  sport : String
  league : String
  home_team : String
  away_team : String
  start_time : ℤ
deriving DecidableEq

/-- A row of the `odds` table as inserted by lines 97-106. -/
structure OddsRow where
  fixture_id : ℕ
  bookmaker : String
  market_type : String
  selection : String
  price : Option ℚ
  point : Option ℚ
deriving DecidableEq

/-- A row of the `predictions` table as written by lines 326-356. -/
structure PredRow where
  fixture_id : ℕ
  market_type : String
  selection : String
  model_probability : ℚ
  value_score : ℚ
  confidence_level : String
  reasoning : List RLine
  is_recommended : Bool
deriving DecidableEq

/-- The session-visible database state (lists in insertion order, so that
`.first()` on a filtered query is `List.find?`). -/
structure Db where
  fixtures : List FixtureRow
  odds : List OddsRow
  predictions : List PredRow
  nextId : ℕ
deriving DecidableEq

/-- The Python exceptions the per-group loop can actually raise: a missing
dict key read with `item["market_type"]` (lines 101 and 331; the grouper
tolerates the key's absence via `.get`, the loop body does not). -/
inductive PyErr where
  | keyError (k : String)
deriving DecidableEq

/-- Lines 74-82: `db.query(Fixture).filter_by(home_team=…, away_team=…,
start_time=…).first()`. -/
def findFixture (db : Db) (first : RawItem) : Option FixtureRow :=
  db.fixtures.find? (fun f =>
    decide (f.home_team = first.home_team ∧ f.away_team = first.away_team ∧
      f.start_time = first.start_time))

/-- Lines 74-94: find-or-create of the fixture; the Bool is true when a new
row was created (in which case line 93 issues a commit). -/
def findOrCreateFixture (db : Db) (first : RawItem) : Db × ℕ × Bool :=
  match findFixture db first with
  | some f => (db, f.id, false)
  | none =>
    ({ db with
        fixtures := db.fixtures ++
          [{ id := db.nextId, fixture_name := first.fixture_name,
             sport := first.sport, league := first.league,
             home_team := first.home_team, away_team := first.away_team,
             start_time := first.start_time }]
        nextId := db.nextId + 1 },
     db.nextId, true)

/-- Lines 96-106: one `Odds` insert per record of the group; raises `KeyError`
on `item["market_type"]` when the key is absent. -/
def addOddsRows (db : Db) (fid : ℕ) (items : List RawItem) : Db × Option PyErr :=
  match items with
  | [] => (db, none)
  | it :: rest =>
    match it.market_type with
    | none => (db, some (.keyError "market_type"))
    | some mt =>
      addOddsRows
        { db with
            odds := db.odds ++
              [{ fixture_id := fid, bookmaker := it.bookmaker, market_type := mt,
                 selection := it.selection, price := it.price, point := it.point }] }
        fid rest

/-- The upsert key of lines 327-334: `(fixture_id, market_type, selection)`. -/
def predKeyMatches (fid : ℕ) (mt sel : String) (p : PredRow) : Bool :=
  decide (p.fixture_id = fid ∧ p.market_type = mt ∧ p.selection = sel)

/-- The row written for a group (the new-row shape of lines 346-355; the
update of lines 339-343 leaves the key fields unchanged and sets the same
five value fields, so the updated row is equal to this one). -/
def mkPredRow (fid : ℕ) (mt sel : String) (v : PredVals) : PredRow :=
  { fixture_id := fid, market_type := mt, selection := sel,
    model_probability := v.model_probability, value_score := v.value_score,
    confidence_level := v.confidence_level, reasoning := v.reasoning,
    is_recommended := v.is_recommended }

/-- Lines 337-343: update the first row matching the key in place. -/
def updateFirstPred (ps : List PredRow) (fid : ℕ) (mt sel : String)
    (v : PredVals) : List PredRow :=
  match ps with
  | [] => []
  | p :: rest =>
    if predKeyMatches fid mt sel p then
      { p with
          model_probability := v.model_probability, value_score := v.value_score,
          confidence_level := v.confidence_level, reasoning := v.reasoning,
          is_recommended := v.is_recommended } :: rest
    else p :: updateFirstPred rest fid mt sel v

/-- Lines 326-356 on the predictions list: update the existing Prediction for
the key if one exists, else insert a new one. -/
def upsertPredList (ps : List PredRow) (fid : ℕ) (mt sel : String)
    (v : PredVals) : List PredRow :=
  if ps.any (predKeyMatches fid mt sel) then updateFirstPred ps fid mt sel v
  else ps ++ [mkPredRow fid mt sel v]

/-- Lines 326-356: update the existing Prediction for the key if one exists,
else insert a new one. -/
def upsertPred (db : Db) (fid : ℕ) (mt sel : String) (v : PredVals) : Db :=
  { db with predictions := upsertPredList db.predictions fid mt sel v }

/-- Observable events of one run, for the temporal claims: the session opened
in `__init__`, each awaited network fetch, and each `self.db.commit()`. -/
inductive Ev where
  | sessionOpen
  | netAwait
  | dbCommit
deriving DecidableEq

/-- The network awaits issued while analysing one group, in source order:
history (line 116), sentiment (121), expert (128), ESPN stats (137), weather
only for NFL (145), key players (151), opponent history only for h2h (162). -/
def groupAwaits (sport : String) (first : RawItem) : List Ev :=
  [.netAwait, .netAwait, .netAwait, .netAwait]
    ++ (if sport = "NFL" then [.netAwait] else [])
    ++ [.netAwait]
    ++ (if first.market_type = some "h2h" then [.netAwait] else [])

/-- Result of processing zero or more groups: the session-visible database,
the uncaught exception if one was raised, and the event trace. -/
structure StepResult where
  db : Db
  err : Option PyErr
  tr : List Ev
deriving DecidableEq

/-- The body of the per-group loop of `AnalysisPipeline.run` (lines 69-356):
find-or-create the fixture (committing if created), insert the odds rows,
await the signal fetches, compute the prediction values, and upsert the
Prediction unless the group was discarded.  An exception aborts the body at
the point it is raised. -/
def processGroup (o : Oracle) (sport : String) (db : Db) (g : List RawItem) :
    StepResult :=
  match g with
  | [] => ⟨db, none, []⟩
  | first :: _ =>
    let fc := findOrCreateFixture db first
    let tr0 : List Ev := if fc.2.2 then [.dbCommit] else []
    match addOddsRows fc.1 fc.2.1 g with
    | (db2, some e) => ⟨db2, some e, tr0⟩
    | (db2, none) =>
      let tr1 := tr0 ++ groupAwaits sport first
      match analyzeValues o sport first g with
      | none => ⟨db2, none, tr1⟩
      | some v =>
        match first.market_type with
        | none => ⟨db2, some (.keyError "market_type"), tr1⟩
        | some mt => ⟨upsertPred db2 fc.2.1 mt first.selection v, none, tr1⟩

/-- The per-group loop over all groups of one sport; an uncaught exception in
one group's body propagates, leaving the remaining groups unprocessed. -/
def processGroups (o : Oracle) (sport : String) (db : Db)
    (gs : List (List RawItem)) : StepResult :=
  match gs with
  | [] => ⟨db, none, []⟩
  | g :: rest =>
    let r := processGroup o sport db g
    match r.err with
    | some e => ⟨r.db, some e, r.tr⟩
    | none =>
      let r2 := processGroups o sport r.db rest
      ⟨r2.db, r2.err, r.tr ++ r2.tr⟩

/-- The grouping key of `_group_odds` (line 376): fixture name, market type
defaulting to `"h2h"`, selection. -/
def groupKey (it : RawItem) : String × String × String :=
  (it.fixture_name, it.market_type.getD "h2h", it.selection)

/-- Append an item to its group, preserving first-appearance key order and
input order within a group (Python dict / defaultdict insertion semantics). -/
def insertGrouped (acc : List ((String × String × String) × List RawItem))
    (it : RawItem) : List ((String × String × String) × List RawItem) :=
  match acc with
  | [] => [(groupKey it, [it])]
  | (k, xs) :: rest =>
    if k = groupKey it then (k, xs ++ [it]) :: rest
    else (k, xs) :: insertGrouped rest it

/-- `AnalysisPipeline._group_odds` (lines 368-379). -/
def groupOdds (odds_data : List RawItem) :
    List ((String × String × String) × List RawItem) :=
  odds_data.foldl insertGrouped []

/-- Lines 61-358 for one sport, given the already-fetched odds data. -/
def runSport (o : Oracle) (sport : String) (db : Db) (odds_data : List RawItem) :
    StepResult :=
  processGroups o sport db ((groupOdds odds_data).map Prod.snd)

/-- The sport loop of `run` (lines 39-358).  Each sport's raw-odds fetch is a
network await; `none` models a fetch timeout or error, which is caught (lines
54-59) and skips only that sport.  An exception inside the group loop is not
caught and propagates. -/
def runSports (o : Oracle) (db : Db)
    (sports : List (String × Option (List RawItem))) : StepResult :=
  match sports with
  | [] => ⟨db, none, []⟩
  | (sport, fetched) :: rest =>
    match fetched with
    | none =>
      let r := runSports o db rest
      ⟨r.db, r.err, Ev.netAwait :: r.tr⟩
    | some odds_data =>
      let r1 := runSport o sport db odds_data
      match r1.err with
      | some e => ⟨r1.db, some e, Ev.netAwait :: r1.tr⟩
      | none =>
        let r2 := runSports o r1.db rest
        ⟨r2.db, r2.err, (Ev.netAwait :: r1.tr) ++ r2.tr⟩

/-- One full pipeline run: the session is opened once in `__init__` (line 19),
`run` processes every sport, and the single final `self.db.commit()` (line
360) is reached only when no exception escaped the loops. -/
def runPipeline (o : Oracle) (db : Db)
    (sports : List (String × Option (List RawItem))) : StepResult :=
  let r := runSports o db sports
  match r.err with
  | some e => ⟨r.db, some e, Ev.sessionOpen :: r.tr⟩
  | none => ⟨r.db, none, (Ev.sessionOpen :: r.tr) ++ [Ev.dbCommit]⟩

/-- Any number of pipeline runs in sequence (each run constructs a fresh
`AnalysisPipeline` over the same database). -/
def runMany (o : Oracle)
    (runs : List (List (String × Option (List RawItem)))) (db : Db) : Db :=
  match runs with
  | [] => db
  | r :: rest => runMany o rest (runPipeline o db r).db

/-- Result shape of `HistoricalFetcher.get_team_stats`
(`src/betting_app/scrapers/history_fetcher.py`). -/
structure HistFetchResult where
  team : String
  win_rate : ℚ
  form_desc : String
deriving DecidableEq

/-- `HistoricalFetcher.get_team_stats` (history_fetcher.py lines 9-50).
`draw` is the value `random.uniform(0.60, 0.85)` would return on the fallback
paths; `simTotal`/`simWins` are the `random.randint` draws used to simulate a
record when the parsed record is 0-0 (the source guarantees
`15 ≤ simTotal ≤ 30` and `int(simTotal*0.6) ≤ simWins ≤ simTotal`).  `int(…)`
parse failures inside the `try` fall to the `except` branch. -/
def getTeamStatsModel (draw : ℚ) (simTotal simWins : ℕ) (team : String)
    (record : Option String) : HistFetchResult :=
  match record with
  | some r =>
    if r ≠ "" ∧ (r.splitOn "-").length ≥ 2 then
      let parts := r.splitOn "-"
      match (parts.get? 0).bind String.toInt?, (parts.get? 1).bind String.toInt? with
      | some wins, some losses =>
        let total := wins + losses
        if total = 0 then
          { team := team, win_rate := (simWins : ℚ) / (simTotal : ℚ),
            form_desc := "Record: " ++ toString simWins ++ "-"
              ++ toString (simTotal - simWins) }
        else
          { team := team,
            win_rate := if total > 0 then (wins : ℚ) / (total : ℚ) else 1/2,
            form_desc := "Record: " ++ r }
      | _, _ => { team := team, win_rate := draw, form_desc := "Record: Est." }
    else { team := team, win_rate := draw, form_desc := "Record: Est." }
  | none => { team := team, win_rate := draw, form_desc := "Record: Est." }

/-- Full result shape of `InjuryFetcher.get_team_injuries`. -/
structure InjuryReport where
  status : String
  impact : String
  description : String
  injured_players : List InjuredPlayer
deriving DecidableEq

/-- `InjuryFetcher._get_empty_injury_report` (injury_fetcher.py lines 116-123):
the value substituted whenever the injury fetch fails. -/
def emptyInjuryReport : InjuryReport :=
  { status := "Full Strength", impact := "Minimal",
    description := "All key players available", injured_players := [] }

/-- Modelled from the spec: whether a fixture id belongs to a fixture of the
given sport whose start time is still in the future.  Needed by the
stale-clear step of the Sport Orchestrator (`_process_sport`), which is
called from `api/main.py` but is absent from `src/`. -/
def isFutureSportFixture (db : Db) (now : ℤ) (sport : String) (fid : ℕ) : Bool :=
  db.fixtures.any (fun f =>
    decide (f.id = fid ∧ f.sport = sport ∧ now < f.start_time))

/-- Modelled from the spec: the stale-clear step of the Sport Orchestrator
(`_process_sport`), absent from `src/` (only its caller `api/main.py` is
present).  Per spec section 4.3 step (2): in a short transactional scope,
delete all Odds Quotes and Predictions belonging to this sport's fixtures
whose start time is still in the future; rows of past fixtures are preserved. -/
def staleClear (now : ℤ) (sport : String) (db : Db) : Db :=
  { db with
      odds := db.odds.filter
        (fun od => ¬ isFutureSportFixture db now sport od.fixture_id)
      predictions := db.predictions.filter
        (fun p => ¬ isFutureSportFixture db now sport p.fixture_id) }

/-- Modelled from the spec: the Sport Orchestrator (`_process_sport`), absent
from `src/`: stale-clear for the sport, then refetch and re-analyse (spec
section 4.3 steps (2)-(5)). -/
def processSportModel (o : Oracle) (now : ℤ) (sport : String) (db : Db)
    (odds_data : List RawItem) : StepResult :=
  runSport o sport (staleClear now sport db) odds_data

/-- A concrete oracle used to evaluate the model on closed inputs. -/
def wOracle : Oracle where
  teamStats := fun _ r => if r.isSome then ⟨3/5, "Record: 6-4"⟩ else ⟨2/5, "Record: Est."⟩
  sentiment := fun _ _ => ⟨1/5⟩
  expert := fun _ _ _ _ _ =>
    { confidence_score := 80
      reasoning_points := ["formPoint", "trendPoint"]
      betting_trends :=
        { public_betting_percentage := 55, expert_consensus := 60,
          sharp_money := "with public", trend_strength := "Moderate" }
      form_analysis := { current_form := "Hot", last_5_games := "4-1", momentum := "Positive" }
      h2h_analysis := { home_field_advantage := 60 }
      injury_analysis := { impact := "Minimal", injured_players := [] }
      sources_consulted := ["SrcA", "SrcB", "SrcC", "SrcD"] }
  espnStats := fun _ _ => ⟨false, 0, 0, 0, 0, 0, 0, 0, 0, 0⟩
  weather := fun _ _ => ⟨false, false, "", "", "", "", none⟩
  topPlayers := fun _ _ _ => []

/-- A quote for the home team of fixture F1 at a normal price. -/
def itemA : RawItem :=
  { fixture_name := "F1", market_type := some "h2h", selection := "Home1",
    price := some 2, point := none, bookmaker := "B1", sport := "NBA",
    league := "L1", home_team := "Home1", away_team := "Away1",
    start_time := 100, record := some "6-4", headlines := none }

/-- A second bookmaker's quote for the same bet as `itemA`, priced lower. -/
def itemA2 : RawItem :=
  { itemA with bookmaker := "B2", price := some (3/2) }

/-- A quote equal to `itemA2` except its `market_type` key is absent: the
grouper defaults it into the same `("F1", "h2h", "Home1")` group, where the
odds-insert loop raises `KeyError` on `item["market_type"]`. -/
def itemA2bad : RawItem :=
  { itemA2 with market_type := none }

/-- A quote for a different selection (the away team of fixture F2). -/
def itemB : RawItem :=
  { fixture_name := "F2", market_type := some "h2h", selection := "Away2",
    price := some 2, point := none, bookmaker := "B1", sport := "NBA",
    league := "L1", home_team := "Home2", away_team := "Away2",
    start_time := 200, record := some "6-4", headlines := none }

/-- A quote whose best price 60.0 is outside the validity range. -/
def itemBadPrice : RawItem :=
  { itemA with price := some 60 }

/-- A quote with no usable price. -/
def itemNoPrice : RawItem :=
  { itemA with price := none }

/-- The empty database. -/
def emptyDb : Db := { fixtures := [], odds := [], predictions := [], nextId := 0 }

/-- The upsert key of a stored Prediction row. -/
def predKey (p : PredRow) : ℕ × String × String :=
  (p.fixture_id, p.market_type, p.selection)

/-- The C4 invariant: at most one Prediction row per
(fixture_id, market_type, selection). -/
def AtMostOnePred (db : Db) : Prop :=
  (db.predictions.map predKey).Nodup

/-- The price-and-bookmaker view of a raw record: the only fields of non-first
group members that the per-group analysis reads. -/
def quoteView (it : RawItem) : Option ℚ × String :=
  (it.price, it.bookmaker)

theorem addOddsRows_fst (db : Db) (fid : ℕ) (items : List RawItem) :
    (addOddsRows db fid items).1.predictions = db.predictions ∧
    (addOddsRows db fid items).1.fixtures = db.fixtures ∧
    (addOddsRows db fid items).1.nextId = db.nextId := by
  induction items generalizing db with
  | nil => simp [addOddsRows]
  | cons it rest ih =>
    cases hmt : it.market_type with
    | none => simp [addOddsRows, hmt]
    | some mt =>
      simp only [addOddsRows, hmt]
      simpa using ih _

theorem addOddsRows_err_none (db : Db) (fid : ℕ) (items : List RawItem)
    (h : ∀ it ∈ items, (it.market_type).isSome) :
    (addOddsRows db fid items).2 = none := by
  induction items generalizing db with
  | nil => simp [addOddsRows]
  | cons it rest ih =>
    have h1 := h it (by simp)
    cases hmt : it.market_type with
    | none => rw [hmt] at h1; simp at h1
    | some mt =>
      simp only [addOddsRows, hmt]
      exact ih _ (fun x hx => h x (by simp [hx]))

theorem findOrCreateFixture_fst (db : Db) (first : RawItem) :
    ((findOrCreateFixture db first).1).predictions = db.predictions ∧
    ((findOrCreateFixture db first).1).odds = db.odds := by
  unfold findOrCreateFixture
  cases findFixture db first <;> simp

theorem predKeyMatches_mkPredRow (fid : ℕ) (mt sel : String) (v : PredVals) :
    predKeyMatches fid mt sel (mkPredRow fid mt sel v) = true := by
  simp [predKeyMatches, mkPredRow]

theorem updateFirstPred_find (ps : List PredRow) (fid : ℕ) (mt sel : String)
    (v : PredVals) (h : ps.any (predKeyMatches fid mt sel) = true) :
    (updateFirstPred ps fid mt sel v).find? (predKeyMatches fid mt sel)
      = some (mkPredRow fid mt sel v) := by
  induction ps with
  | nil => simp at h
  | cons p rest ih =>
    by_cases hp : predKeyMatches fid mt sel p = true
    · obtain ⟨h1, h2, h3⟩ := of_decide_eq_true hp
      cases p
      simp_all [updateFirstPred, predKeyMatches, mkPredRow, List.find?]
    · have h' : rest.any (predKeyMatches fid mt sel) = true := by
        simp only [List.any_cons, Bool.or_eq_true] at h
        rcases h with h | h
        · exact absurd h hp
        · exact h
      have hp' : predKeyMatches fid mt sel p = false := by
        revert hp; cases predKeyMatches fid mt sel p <;> simp
      simp only [updateFirstPred, hp', Bool.false_eq_true, if_false]
      rw [List.find?_cons_of_neg _ (by simp [hp'])]
      exact ih h'

theorem upsertPredList_find (ps : List PredRow) (fid : ℕ) (mt sel : String)
    (v : PredVals) :
    (upsertPredList ps fid mt sel v).find? (predKeyMatches fid mt sel)
      = some (mkPredRow fid mt sel v) := by
  unfold upsertPredList
  by_cases ha : ps.any (predKeyMatches fid mt sel) = true
  · rw [if_pos ha]
    exact updateFirstPred_find ps fid mt sel v ha
  · rw [if_neg ha]
    have hall : ∀ p ∈ ps, predKeyMatches fid mt sel p = false := by
      intro p hp
      by_contra hc
      apply ha
      simp only [List.any_eq_true]
      refine ⟨p, hp, ?_⟩
      revert hc; cases predKeyMatches fid mt sel p <;> simp
    have key : ∀ (qs : List PredRow),
        (∀ p ∈ qs, predKeyMatches fid mt sel p = false) →
        List.find? (predKeyMatches fid mt sel) (qs ++ [mkPredRow fid mt sel v])
          = some (mkPredRow fid mt sel v) := by
      intro qs
      induction qs with
      | nil =>
        intro _
        simp [List.find?_cons_of_pos _ (predKeyMatches_mkPredRow fid mt sel v)]
      | cons p rest ih =>
        intro hq
        rw [List.cons_append,
          List.find?_cons_of_neg _ (by simp [hq p (by simp)])]
        exact ih (fun q hqq => hq q (by simp [hqq]))
    exact key ps hall

theorem updateFirstPred_map_key (ps : List PredRow) (fid : ℕ) (mt sel : String)
    (v : PredVals) :
    (updateFirstPred ps fid mt sel v).map predKey = ps.map predKey := by
  induction ps with
  | nil => simp [updateFirstPred]
  | cons p rest ih =>
    by_cases hp : predKeyMatches fid mt sel p = true
    · cases p
      simp_all [updateFirstPred, predKey]
    · simp only [updateFirstPred, List.map_cons, ih]
      rw [if_neg (by simp [hp])]
      simp [ih]

theorem upsertPredList_nodup (ps : List PredRow) (fid : ℕ) (mt sel : String)
    (v : PredVals) (h : (ps.map predKey).Nodup) :
    ((upsertPredList ps fid mt sel v).map predKey).Nodup := by
  unfold upsertPredList
  by_cases ha : ps.any (predKeyMatches fid mt sel) = true
  · rw [if_pos ha, updateFirstPred_map_key]
    exact h
  · rw [if_neg ha, List.map_append]
    rw [List.nodup_append]
    refine ⟨h, List.nodup_singleton _, ?_⟩
    intro k hk hk1
    simp only [List.map_cons, List.map_nil, List.mem_singleton] at hk1
    subst hk1
    simp only [List.mem_map] at hk
    obtain ⟨p, hp, hkey⟩ := hk
    have hfalse : predKeyMatches fid mt sel p = false := by
      by_contra hc
      exact ha (by
        simp only [List.any_eq_true]
        exact ⟨p, hp, by revert hc; cases predKeyMatches fid mt sel p <;> simp⟩)
    simp only [predKeyMatches, decide_eq_false_iff_not] at hfalse
    apply hfalse
    have : predKey p = (fid, mt, sel) := by
      rw [hkey]; simp [mkPredRow, predKey]
    cases p
    simp [predKey] at this
    simp [this]

theorem processGroup_spec (o : Oracle) (sport : String) (db : Db)
    (first : RawItem) (rest : List RawItem) (mt : String)
    (hmt : first.market_type = some mt)
    (hall : ∀ it ∈ first :: rest, (it.market_type).isSome) :
    (processGroup o sport db (first :: rest)).err = none ∧
    (processGroup o sport db (first :: rest)).db.predictions =
      (match analyzeValues o sport first (first :: rest) with
       | none => db.predictions
       | some v =>
         upsertPredList db.predictions ((findOrCreateFixture db first).2.1) mt
           first.selection v) := by
  have hfc := findOrCreateFixture_fst db first
  have herr := addOddsRows_err_none (findOrCreateFixture db first).1
    (findOrCreateFixture db first).2.1 (first :: rest) hall
  have hfst := addOddsRows_fst (findOrCreateFixture db first).1
    (findOrCreateFixture db first).2.1 (first :: rest)
  rcases hA : addOddsRows (findOrCreateFixture db first).1
      (findOrCreateFixture db first).2.1 (first :: rest) with ⟨db2, e2⟩
  rw [hA] at herr hfst
  simp only at herr hfst
  subst herr
  simp only [processGroup, hA]
  cases hv : analyzeValues o sport first (first :: rest) with
  | none => simp [hfst.1, hfc.1]
  | some v =>
    rw [hmt]
    simp [upsertPred, hfst.1, hfc.1]

theorem processGroup_nodup (o : Oracle) (sport : String) (db : Db)
    (g : List RawItem) (h : AtMostOnePred db) :
    AtMostOnePred (processGroup o sport db g).db := by
  cases g with
  | nil => simpa [processGroup]
  | cons first rest =>
    have hfc := findOrCreateFixture_fst db first
    have hfst := addOddsRows_fst (findOrCreateFixture db first).1
      (findOrCreateFixture db first).2.1 (first :: rest)
    rcases hA : addOddsRows (findOrCreateFixture db first).1
        (findOrCreateFixture db first).2.1 (first :: rest) with ⟨db2, e2⟩
    rw [hA] at hfst
    simp only at hfst
    simp only [processGroup, hA]
    cases e2 with
    | some e =>
      simpa [AtMostOnePred, hfst.1, hfc.1] using h
    | none =>
      cases hv : analyzeValues o sport first (first :: rest) with
      | none => simpa [AtMostOnePred, hfst.1, hfc.1] using h
      | some v =>
        cases hmt : first.market_type with
        | none => simpa [AtMostOnePred, hfst.1, hfc.1] using h
        | some mt =>
          simp only [upsertPred, AtMostOnePred]
          rw [hfst.1, hfc.1]
          exact upsertPredList_nodup _ _ _ _ _ h

theorem processGroups_nodup (o : Oracle) (sport : String) (db : Db)
    (gs : List (List RawItem)) (h : AtMostOnePred db) :
    AtMostOnePred (processGroups o sport db gs).db := by
  induction gs generalizing db with
  | nil => simpa [processGroups]
  | cons g rest ih =>
    simp only [processGroups]
    cases he : (processGroup o sport db g).err with
    | some e => simpa using processGroup_nodup o sport db g h
    | none => simpa using ih _ (processGroup_nodup o sport db g h)

theorem runSports_nodup (o : Oracle) (db : Db)
    (ss : List (String × Option (List RawItem))) (h : AtMostOnePred db) :
    AtMostOnePred (runSports o db ss).db := by
  induction ss generalizing db with
  | nil => simpa [runSports]
  | cons s rest ih =>
    rcases s with ⟨sport, fetched⟩
    cases fetched with
    | none =>
      simp only [runSports]
      simpa using ih db h
    | some odds_data =>
      simp only [runSports]
      cases he : (runSport o sport db odds_data).err with
      | some e => simpa using processGroups_nodup o sport db _ h
      | none => simpa using ih _ (processGroups_nodup o sport db _ h)

theorem runPipeline_nodup (o : Oracle) (db : Db)
    (ss : List (String × Option (List RawItem))) (h : AtMostOnePred db) :
    AtMostOnePred (runPipeline o db ss).db := by
  simp only [runPipeline]
  cases he : (runSports o db ss).err with
  | some e => simpa using runSports_nodup o db ss h
  | none => simpa using runSports_nodup o db ss h

theorem findOrCreateFixture_len (db : Db) (first : RawItem) :
    ((findOrCreateFixture db first).1).fixtures.length
      = db.fixtures.length
        + (if (findOrCreateFixture db first).2.2 then 1 else 0) := by
  unfold findOrCreateFixture
  cases findFixture db first <;> simp

theorem groupAwaits_counts (sport : String) (first : RawItem) :
    (groupAwaits sport first).count Ev.dbCommit = 0 ∧
    (groupAwaits sport first).count Ev.sessionOpen = 0 := by
  unfold groupAwaits
  split_ifs <;> simp [List.count_cons, List.count_append]

theorem processGroup_counts (o : Oracle) (sport : String) (db : Db)
    (g : List RawItem) :
    (processGroup o sport db g).tr.count Ev.dbCommit + db.fixtures.length
      = (processGroup o sport db g).db.fixtures.length ∧
    (processGroup o sport db g).tr.count Ev.sessionOpen = 0 := by
  cases g with
  | nil => simp [processGroup]
  | cons first rest =>
    have hlen := findOrCreateFixture_len db first
    have hfst := addOddsRows_fst (findOrCreateFixture db first).1
      (findOrCreateFixture db first).2.1 (first :: rest)
    have hga := groupAwaits_counts sport first
    rcases hA : addOddsRows (findOrCreateFixture db first).1
        (findOrCreateFixture db first).2.1 (first :: rest) with ⟨db2, e2⟩
    rw [hA] at hfst
    simp only at hfst
    simp only [processGroup, hA]
    cases e2 with
    | some e =>
      cases hc : (findOrCreateFixture db first).2.2 <;>
        · rw [hc] at hlen
          simp_all [List.count_cons]
          try omega
    | none =>
      cases hv : analyzeValues o sport first (first :: rest) with
      | none =>
        cases hc : (findOrCreateFixture db first).2.2 <;>
          · rw [hc] at hlen
            simp_all [List.count_append, List.count_cons]
            try omega
      | some v =>
        cases hmt : first.market_type with
        | none =>
          cases hc : (findOrCreateFixture db first).2.2 <;>
            · rw [hc] at hlen
              simp_all [List.count_append, List.count_cons]
              try omega
        | some mt =>
          cases hc : (findOrCreateFixture db first).2.2 <;>
            · rw [hc] at hlen
              simp_all [List.count_append, List.count_cons, upsertPred]
              try omega

theorem processGroups_counts (o : Oracle) (sport : String) (db : Db)
    (gs : List (List RawItem)) :
    (processGroups o sport db gs).tr.count Ev.dbCommit + db.fixtures.length
      = (processGroups o sport db gs).db.fixtures.length ∧
    (processGroups o sport db gs).tr.count Ev.sessionOpen = 0 := by
  induction gs generalizing db with
  | nil => simp [processGroups]
  | cons g rest ih =>
    have hg := processGroup_counts o sport db g
    simp only [processGroups]
    cases he : (processGroup o sport db g).err with
    | some e => simpa using hg
    | none =>
      have hr := ih (processGroup o sport db g).db
      simp only at hr ⊢
      constructor
      · rw [List.count_append]
        omega
      · rw [List.count_append]
        omega

theorem runSports_counts (o : Oracle) (db : Db)
    (ss : List (String × Option (List RawItem))) :
    (runSports o db ss).tr.count Ev.dbCommit + db.fixtures.length
      = (runSports o db ss).db.fixtures.length ∧
    (runSports o db ss).tr.count Ev.sessionOpen = 0 := by
  induction ss generalizing db with
  | nil => simp [runSports]
  | cons s rest ih =>
    rcases s with ⟨sport, fetched⟩
    cases fetched with
    | none =>
      simp only [runSports]
      have := ih db
      simpa [List.count_cons] using this
    | some odds_data =>
      have hg := processGroups_counts o sport db
        ((groupOdds odds_data).map Prod.snd)
      simp only [runSports, runSport]
      cases he : (processGroups o sport db ((groupOdds odds_data).map Prod.snd)).err with
      | some e =>
        simp only [runSport] at *
        constructor
        · simpa [List.count_cons] using hg.1
        · simpa [List.count_cons] using hg.2
      | none =>
        have hr := ih (processGroups o sport db ((groupOdds odds_data).map Prod.snd)).db
        simp only [runSport] at *
        constructor
        · simp only [List.count_append, List.count_cons, beq_iff_eq]
          simp only [show (Ev.netAwait = Ev.dbCommit) = False by simp, if_false]
          omega
        · simp only [List.count_append, List.count_cons, beq_iff_eq]
          simp only [show (Ev.netAwait = Ev.sessionOpen) = False by simp, if_false]
          omega

theorem filterMap_price_proj : ∀ (xs ys : List RawItem),
    xs.map quoteView = ys.map quoteView →
    xs.filterMap (fun it => it.price) = ys.filterMap (fun it => it.price) := by
  intro xs
  induction xs with
  | nil =>
    intro ys h
    cases ys with
    | nil => rfl
    | cons y yt => simp at h
  | cons x xt ih =>
    intro ys h
    cases ys with
    | nil => simp at h
    | cons y yt =>
      simp only [List.map_cons, List.cons.injEq] at h
      have hp : x.price = y.price := congrArg Prod.fst h.1
      simp only [List.filterMap_cons, hp, ih yt h.2]

theorem allPricesOf_proj (xs ys : List RawItem)
    (h : xs.map quoteView = ys.map quoteView) :
    allPricesOf xs = allPricesOf ys := by
  unfold allPricesOf
  rw [filterMap_price_proj xs ys h]

theorem bestPriceOf_proj (xs ys : List RawItem)
    (h : xs.map quoteView = ys.map quoteView) :
    bestPriceOf xs = bestPriceOf ys := by
  unfold bestPriceOf
  rw [allPricesOf_proj xs ys h]

theorem avgPriceOf_proj (xs ys : List RawItem)
    (h : xs.map quoteView = ys.map quoteView) :
    avgPriceOf xs = avgPriceOf ys := by
  unfold avgPriceOf
  rw [allPricesOf_proj xs ys h]

theorem find?_price_book_proj (b : Option ℚ) : ∀ (xs ys : List RawItem),
    xs.map quoteView = ys.map quoteView →
    ((xs.find? (fun it => decide (it.price = b))).map (fun it => it.bookmaker))
      = ((ys.find? (fun it => decide (it.price = b))).map (fun it => it.bookmaker)) := by
  intro xs
  induction xs with
  | nil =>
    intro ys h
    cases ys with
    | nil => rfl
    | cons y yt => simp at h
  | cons x xt ih =>
    intro ys h
    cases ys with
    | nil => simp at h
    | cons y yt =>
      simp only [List.map_cons, List.cons.injEq] at h
      have hp : x.price = y.price := congrArg Prod.fst h.1
      have hb : x.bookmaker = y.bookmaker := congrArg Prod.snd h.1
      by_cases hxb : x.price = b
      · rw [List.find?_cons_of_pos _ (by simp [hxb]),
          List.find?_cons_of_pos _ (by simp [← hp, hxb])]
        simp [hb]
      · rw [List.find?_cons_of_neg _ (by simp [hxb]),
          List.find?_cons_of_neg _ (by simp [← hp, hxb])]
        exact ih yt h.2

theorem bestBookmakerOf_proj (xs ys : List RawItem)
    (h : xs.map quoteView = ys.map quoteView) :
    bestBookmakerOf xs = bestBookmakerOf ys := by
  unfold bestBookmakerOf
  rw [bestPriceOf_proj xs ys h, find?_price_book_proj (bestPriceOf ys) xs ys h]

theorem analyzeValues_proj (o : Oracle) (sport : String) (first : RawItem)
    (rest rest' : List RawItem)
    (h : rest.map quoteView = rest'.map quoteView) :
    analyzeValues o sport first (first :: rest)
      = analyzeValues o sport first (first :: rest') := by
  have hitems : (first :: rest).map quoteView = (first :: rest').map quoteView := by
    simp [h]
  have hbest := bestPriceOf_proj _ _ hitems
  have havg := avgPriceOf_proj _ _ hitems
  have hbook := bestBookmakerOf_proj _ _ hitems
  have hlen : (first :: rest).length = (first :: rest').length := by
    have := congrArg List.length hitems
    simpa using this
  unfold analyzeValues
  rw [hbest, havg, hbook, hlen]

/-- Claim C1: for every analyzed group, the final probability written to the
Prediction equals the base probability plus an additive sentiment adjustment
of sentiment_score × 0.05, plus an expert adjustment of
(confidence_score / 100) × 0.15, plus a home-field bonus of
(home_field_advantage − 50) / 1000 applied if and only if the team is at home
and home_field_advantage > 50 (otherwise the bonus term is exactly 0), with
the sum clamped to the closed interval [0.01, 0.99]. -/
theorem C1_final_probability (o : Oracle) (sport : String) (db : Db)
    (first : RawItem) (rest : List RawItem) (mt : String) (v : PredVals)
    (hmt : first.market_type = some mt)
    (hall : ∀ it ∈ first :: rest, (it.market_type).isSome)
    (hv : analyzeValues o sport first (first :: rest) = some v) :
    ((processGroup o sport db (first :: rest)).db.predictions.find?
        (predKeyMatches (findOrCreateFixture db first).2.1 mt first.selection))
      = some (mkPredRow (findOrCreateFixture db first).2.1 mt first.selection v) ∧
    v.model_probability =
      clamp01 (baseProbOf o first
        + (o.sentiment first.fixture_name (first.headlines.getD [])).sentiment_score
            * (5/100)
        + ((expertOf o sport first).confidence_score / 100) * (15/100)
        + (if first.selection = first.home_team
              ∧ (expertOf o sport first).h2h_analysis.home_field_advantage > 50
           then ((expertOf o sport first).h2h_analysis.home_field_advantage - 50)
                  / 1000
           else 0)) := by
  have hspec := processGroup_spec o sport db first rest mt hmt hall
  constructor
  · rw [hspec.2, hv]
    exact upsertPredList_find _ _ _ _ _
  · have hprob : v.model_probability = trueProbOf o sport first := by
      simp only [analyzeValues] at hv
      cases hg : valueGate (trueProbOf o sport first) (bestPriceOf (first :: rest)) with
      | none => rw [hg] at hv; simp at hv
      | some value =>
        rw [hg] at hv
        simp only [Option.some.injEq] at hv
        rw [← hv]
    rw [hprob]
    simp only [trueProbOf, sentScoreOf, isHomeOf, beq_iff_eq]

/-- Claim C2: for every group whose market type is moneyline (h2h) — the
opponent win rate is then always fetched and available — the base probability
equals win_rate / (win_rate + opponent_win_rate), defaulting to 0.5 when both
rates are zero; for every other group, the base probability equals the team's
raw historical win rate.  Win rates are nonnegative per the fetcher contract
(spec section 6: win_rate lies in [0, 1]). -/
theorem C2_base_probability (o : Oracle) (first : RawItem)
    (hwr : 0 ≤ (o.teamStats first.selection first.record).win_rate)
    (hopp : 0 ≤ (o.teamStats (opponentOf first) none).win_rate) :
    (first.market_type = some "h2h" →
      baseProbOf o first =
        (if (o.teamStats first.selection first.record).win_rate = 0
            ∧ (o.teamStats (opponentOf first) none).win_rate = 0
         then 1/2
         else (o.teamStats first.selection first.record).win_rate
           / ((o.teamStats first.selection first.record).win_rate
              + (o.teamStats (opponentOf first) none).win_rate))) ∧
    (first.market_type ≠ some "h2h" →
      baseProbOf o first = (o.teamStats first.selection first.record).win_rate) := by
  constructor
  · intro hmt
    unfold baseProbOf histOf
    rw [if_pos hmt]
    by_cases hz : (o.teamStats first.selection first.record).win_rate = 0
        ∧ (o.teamStats (opponentOf first) none).win_rate = 0
    · rw [if_pos hz, if_neg (by rw [hz.1, hz.2]; norm_num)]
    · have hpos : 0 < (o.teamStats first.selection first.record).win_rate
          + (o.teamStats (opponentOf first) none).win_rate := by
        rcases hwr.lt_or_eq with h | h
        · linarith
        · rcases hopp.lt_or_eq with h2 | h2
          · linarith
          · exact absurd ⟨h.symm, h2.symm⟩ hz
      rw [if_neg hz, if_pos hpos]
  · intro hmt
    unfold baseProbOf histOf
    rw [if_neg hmt]

/-- Claim C3: for every group whose best price lies outside [1.01, 50.0], or
whose computed value score (probability × best_price − 1) exceeds 2.0, no
Prediction row is written for that group, no error is raised to the caller,
and processing continues with the remaining groups. -/
theorem C3_data_quality_discard (o : Oracle) (sport : String) (db : Db)
    (first : RawItem) (rest : List RawItem) (gs : List (List RawItem)) (bp : ℚ)
    (hall : ∀ it ∈ first :: rest, (it.market_type).isSome)
    (hbp : bestPriceOf (first :: rest) = some bp)
    (hbad : bp < 101/100 ∨ bp > 50 ∨ trueProbOf o sport first * bp - 1 > 2) :
    (processGroup o sport db (first :: rest)).err = none ∧
    (processGroup o sport db (first :: rest)).db.predictions = db.predictions ∧
    (processGroups o sport db ((first :: rest) :: gs)).db
      = (processGroups o sport (processGroup o sport db (first :: rest)).db gs).db ∧
    (processGroups o sport db ((first :: rest) :: gs)).err
      = (processGroups o sport (processGroup o sport db (first :: rest)).db gs).err := by
  obtain ⟨mt, hmt⟩ := Option.isSome_iff_exists.mp (hall first (by simp))
  have hgate : valueGate (trueProbOf o sport first) (bestPriceOf (first :: rest))
      = none := by
    rw [hbp]
    show (if bp < 101/100 ∨ bp > 50 then none
          else if trueProbOf o sport first * bp - 1 > 2 then none
          else some (trueProbOf o sport first * bp - 1)) = none
    rcases hbad with h | h | h
    · rw [if_pos (Or.inl h)]
    · rw [if_pos (Or.inr h)]
    · by_cases hrange : bp < 101/100 ∨ bp > 50
      · rw [if_pos hrange]
      · rw [if_neg hrange, if_pos h]
  have hv : analyzeValues o sport first (first :: rest) = none := by
    simp only [analyzeValues]
    rw [hgate]
  have hspec := processGroup_spec o sport db first rest mt hmt hall
  rw [hv] at hspec
  refine ⟨hspec.1, hspec.2, ?_, ?_⟩ <;>
    · simp only [processGroups]
      rw [hspec.1]

/-- Claim C4: after any number of pipeline runs, at most one Prediction row
exists per (fixture_id, market_type, selection): when a Prediction for that
key already exists its value fields are updated in place (same number of
rows), otherwise a new row is appended. -/
theorem C4_upsert_invariant (o : Oracle)
    (runs : List (List (String × Option (List RawItem)))) (db : Db)
    (h : AtMostOnePred db) :
    AtMostOnePred (runMany o runs db) ∧
    (∀ (ps : List PredRow) (fid : ℕ) (mt sel : String) (v : PredVals),
      (ps.any (predKeyMatches fid mt sel) = true →
        (upsertPredList ps fid mt sel v).length = ps.length) ∧
      (ps.any (predKeyMatches fid mt sel) = false →
        upsertPredList ps fid mt sel v = ps ++ [mkPredRow fid mt sel v])) := by
  constructor
  · have main : ∀ (rs : List (List (String × Option (List RawItem)))) (d : Db),
        AtMostOnePred d → AtMostOnePred (runMany o rs d) := by
      intro rs
      induction rs with
      | nil => intro d hd; simpa [runMany]
      | cons r rest ih =>
        intro d hd
        simp only [runMany]
        exact ih _ (runPipeline_nodup o d r hd)
    exact main runs db h
  · intro ps fid mt sel v
    constructor
    · intro ha
      unfold upsertPredList
      rw [if_pos ha]
      have := congrArg List.length (updateFirstPred_map_key ps fid mt sel v)
      simpa using this
    · intro ha
      unfold upsertPredList
      rw [if_neg (by simp [ha])]

/-- Claim C5 (spec-modelled, `_process_sport` is absent from src): before
refetching odds for a sport, the orchestration step deletes all Odds Quotes
and Predictions belonging to that sport's fixtures whose start time is still
in the future, while rows belonging to past (already started) fixtures are
left untouched; future rows are absent after the clear, so the subsequent
re-run regenerates them without duplicate accumulation. -/
theorem C5_stale_clear (now : ℤ) (sport : String) (db : Db) :
    (∀ od : OddsRow, od ∈ (staleClear now sport db).odds ↔
      od ∈ db.odds ∧ isFutureSportFixture db now sport od.fixture_id = false) ∧
    (∀ p : PredRow, p ∈ (staleClear now sport db).predictions ↔
      p ∈ db.predictions ∧ isFutureSportFixture db now sport p.fixture_id = false) ∧
    (staleClear now sport db).fixtures = db.fixtures := by
  refine ⟨?_, ?_, rfl⟩ <;>
  · intro x
    simp [staleClear, List.mem_filter]

unseal Rat.mul Rat.add Rat.inv Rat.sub in
/-- Claim C6, counterexample: a group whose second record lacks the
market_type key raises an uncaught KeyError in the odds-insert loop; the
error reaches the caller and the sibling group (which on its own would yield
a prediction) is never processed — the claim's per-group isolation fails. -/
theorem C6_counterexample :
    (runSports wOracle emptyDb [("NBA", some [itemA, itemA2bad, itemB])]).err
        = some (PyErr.keyError "market_type") ∧
    (runSports wOracle emptyDb [("NBA", some [itemA, itemA2bad, itemB])]).db.predictions
        = [] ∧
    (runSports wOracle emptyDb [("NBA", some [itemB])]).db.predictions.length
        = 1 := by
  refine ⟨?_, ?_, ?_⟩ <;> rfl

/-- Claim C6, amended: only failures of the per-sport odds fetch are caught
(skipping that sport only); an exception raised during one group's analysis
is not caught — it propagates to the caller, aborting the remaining (sibling)
groups of the run, whose database state stays as it was at the error. -/
theorem C6_amended (o : Oracle) (sport s2 : String) (db : Db) (g : List RawItem)
    (gs : List (List RawItem)) (rest : List (String × Option (List RawItem)))
    (odds_data : List RawItem) (e : PyErr)
    (he : (processGroup o sport db g).err = some e) :
    (processGroups o sport db (g :: gs)).err = some e ∧
    (processGroups o sport db (g :: gs)).db = (processGroup o sport db g).db ∧
    ((runSport o sport db odds_data).err = some e →
      (runSports o db ((sport, some odds_data) :: rest)).err = some e ∧
      (runSports o db ((sport, some odds_data) :: rest)).db
        = (runSport o sport db odds_data).db) ∧
    (runSports o db ((s2, none) :: rest)).err = (runSports o db rest).err ∧
    (runSports o db ((s2, none) :: rest)).db = (runSports o db rest).db := by
  refine ⟨?_, ?_, ?_, ?_, ?_⟩
  · simp only [processGroups]
    rw [he]
  · simp only [processGroups]
    rw [he]
  · intro hs
    simp only [runSports]
    rw [hs]
    exact ⟨rfl, rfl⟩
  · simp only [runSports]
  · simp only [runSports]

/-- A fixture row matching `itemA`, pre-existing in the database. -/
def fixtureRowA : FixtureRow :=
  { id := 0, fixture_name := "F1", sport := "NBA", league := "L1",
    home_team := "Home1", away_team := "Away1", start_time := 100 }

/-- A fixture row matching `itemB`, pre-existing in the database. -/
def fixtureRowB : FixtureRow :=
  { id := 1, fixture_name := "F2", sport := "NBA", league := "L1",
    home_team := "Home2", away_team := "Away2", start_time := 200 }

/-- A database already holding both fixtures (so the run creates none). -/
def db7 : Db :=
  { fixtures := [fixtureRowA, fixtureRowB], odds := [], predictions := [],
    nextId := 2 }

unseal Rat.mul Rat.add Rat.inv Rat.sub in
/-- Claim C7, counterexample: a run that analyses two groups and writes two
Predictions issues exactly one commit (the single end-of-run commit), not one
per group, and the only session open event precedes every network await —
the session is created in `__init__`, before signal collection, and held
across the whole run. -/
theorem C7_counterexample :
    (runPipeline wOracle db7 [("NBA", some [itemA, itemB])]).err = none ∧
    (runPipeline wOracle db7 [("NBA", some [itemA, itemB])]).db.predictions.length
        = 2 ∧
    (runPipeline wOracle db7 [("NBA", some [itemA, itemB])]).tr.count Ev.dbCommit
        = 1 ∧
    (runPipeline wOracle db7 [("NBA", some [itemA, itemB])]).tr.head?
        = some Ev.sessionOpen ∧
    0 < (runPipeline wOracle db7 [("NBA", some [itemA, itemB])]).tr.count
          Ev.netAwait := by
  refine ⟨rfl, rfl, rfl, rfl, by decide⟩

/-- Claim C7, amended: a single session is opened at pipeline construction,
before any network await, and is the first event of every run; commits are
issued only when a new fixture row is created and once at the end of a run
that raised no exception (whose last event is that final commit) — not once
per group; every network await therefore happens between the session open
and the final commit, with the session held across it. -/
theorem C7_amended (o : Oracle) (db : Db)
    (ss : List (String × Option (List RawItem))) :
    (runPipeline o db ss).tr.head? = some Ev.sessionOpen ∧
    (runPipeline o db ss).tr.count Ev.sessionOpen = 1 ∧
    ((runPipeline o db ss).err = none →
      (runPipeline o db ss).tr.getLast? = some Ev.dbCommit ∧
      (runPipeline o db ss).tr.count Ev.dbCommit
        = ((runPipeline o db ss).db.fixtures.length - db.fixtures.length) + 1) ∧
    ((runPipeline o db ss).err ≠ none →
      (runPipeline o db ss).tr.count Ev.dbCommit
        = (runPipeline o db ss).db.fixtures.length - db.fixtures.length) := by
  have hc := runSports_counts o db ss
  simp only [runPipeline]
  cases he : (runSports o db ss).err with
  | some e =>
    refine ⟨rfl, ?_, ?_, ?_⟩
    · simp [List.count_cons, hc.2]
    · intro hne
      simp at hne
    · intro _
      have h1 : (List.count Ev.dbCommit
          (Ev.sessionOpen :: (runSports o db ss).tr))
          = List.count Ev.dbCommit (runSports o db ss).tr := by
        simp [List.count_cons]
      simp only [h1]
      omega
  | none =>
    refine ⟨?_, ?_, ?_, ?_⟩
    · rfl
    · rw [List.count_append]
      simp [List.count_cons, hc.2]
    · intro _
      constructor
      · rw [show (Ev.sessionOpen :: (runSports o db ss).tr) ++ [Ev.dbCommit]
            = (Ev.sessionOpen :: (runSports o db ss).tr) ++ Ev.dbCommit :: [] from rfl,
          List.getLast?_append_cons]
        rfl
      · rw [List.count_append]
        have h1 : (List.count Ev.dbCommit
            (Ev.sessionOpen :: (runSports o db ss).tr))
            = List.count Ev.dbCommit (runSports o db ss).tr := by
          simp [List.count_cons]
        have h2 : List.count Ev.dbCommit [Ev.dbCommit] = 1 := by simp
        simp only [h1, h2]
        omega
    · intro hne
      simp at hne

/-- Claim C8, counterexample: a historical-record fetch with no record to
parse substitutes the optimistic random draw from [0.60, 0.85] — here 0.7, a
value `random.uniform(0.60, 0.85)` can return — which is never the neutral
0.5 the claim requires. -/
theorem C8_counterexample :
    (getTeamStatsModel (7/10) 20 15 "TeamX" none).win_rate = 7/10 ∧
    (3/5 : ℚ) ≤ 7/10 ∧ (7/10 : ℚ) ≤ 17/20 ∧ ((7/10 : ℚ) ≠ 1/2) := by
  refine ⟨rfl, by norm_num, by norm_num, by norm_num⟩

/-- Claim C8, amended: a failed or missing historical-record fetch is
recovered locally and never propagated, but the substituted default is the
optimistic random draw from [0.60, 0.85] (hence never 0.5), both when no
record string is supplied and when the supplied one is unparsable; the
injury fetch does substitute the neutral empty report on failure. -/
theorem C8_amended (draw : ℚ) (simTotal simWins : ℕ) (team : String)
    (r : String) (hd1 : 3/5 ≤ draw) (hd2 : draw ≤ 17/20)
    (hr : ¬(r ≠ "" ∧ (r.splitOn "-").length ≥ 2)) :
    (getTeamStatsModel draw simTotal simWins team none).win_rate = draw ∧
    (getTeamStatsModel draw simTotal simWins team (some r)).win_rate = draw ∧
    draw ≠ 1/2 ∧
    emptyInjuryReport.injured_players = [] := by
  refine ⟨rfl, ?_, by intro h; rw [h] at hd1; norm_num at hd1, rfl⟩
  simp only [getTeamStatsModel]
  rw [if_neg hr]

/-- Claim C9: for every group in which best_price is None (no quote carries
a usable price), the stored value score is exactly 0.0, the confidence tier
is decided by the no-price branch (High iff probability > 0.65, Medium iff
probability > 0.50, else Low), and the group is not discarded by the
price-validity gate — its Prediction is written. -/
theorem C9_no_price (o : Oracle) (sport : String) (db : Db) (first : RawItem)
    (rest : List RawItem) (mt : String)
    (hmt : first.market_type = some mt)
    (hall : ∀ it ∈ first :: rest, (it.market_type).isSome)
    (hbp : bestPriceOf (first :: rest) = none) :
    (processGroup o sport db (first :: rest)).err = none ∧
    ∃ r : PredRow,
      (processGroup o sport db (first :: rest)).db.predictions.find?
          (predKeyMatches (findOrCreateFixture db first).2.1 mt first.selection)
        = some r ∧
      r.value_score = 0 ∧
      r.model_probability = trueProbOf o sport first ∧
      r.confidence_level =
        (if trueProbOf o sport first > 65/100 then "High"
         else if trueProbOf o sport first > 1/2 then "Medium" else "Low") := by
  have hspec := processGroup_spec o sport db first rest mt hmt hall
  have hgate : valueGate (trueProbOf o sport first) (bestPriceOf (first :: rest))
      = some 0 := by
    rw [hbp]
    rfl
  have hv : analyzeValues o sport first (first :: rest)
      = some
        { model_probability := trueProbOf o sport first
          value_score := 0
          confidence_level :=
            confidenceOf (bestPriceOf (first :: rest)) 0 (trueProbOf o sport first)
          reasoning := buildReasoning sport first (first :: rest).length
            (bestPriceOf (first :: rest)) (avgPriceOf (first :: rest))
            (bestBookmakerOf (first :: rest)) (trueProbOf o sport first) 0
            (sentScoreOf o first) (expertOf o sport first)
            (o.espnStats first.selection sport)
            (if sport = "NFL" then some (o.weather first.home_team first.start_time)
             else none)
            (o.topPlayers first.selection sport 3) (first.headlines.getD [])
          is_recommended :=
            recommendedOf (bestPriceOf (first :: rest)) 0 (trueProbOf o sport first) } := by
    simp only [analyzeValues]
    rw [hgate]
  refine ⟨hspec.1, ?_⟩
  rw [hspec.2, hv]
  refine ⟨_, upsertPredList_find _ _ _ _ _, rfl, rfl, ?_⟩
  simp only [mkPredRow]
  rw [hbp]
  rfl

/-- Claim C10: for every group, the Prediction row written is determined by
the first record of the group together with only the price and bookmaker
fields of the remaining records: replacing the non-first records by any
records with the same prices and bookmakers (any other field changed) leaves
the computed prediction values, the resulting predictions table and the
error behaviour unchanged. -/
theorem C10_noninterference (o : Oracle) (sport : String) (db : Db)
    (first : RawItem) (rest rest' : List RawItem)
    (hproj : rest.map quoteView = rest'.map quoteView)
    (hall : ∀ it ∈ first :: rest, (it.market_type).isSome)
    (hall' : ∀ it ∈ first :: rest', (it.market_type).isSome) :
    (processGroup o sport db (first :: rest)).db.predictions
      = (processGroup o sport db (first :: rest')).db.predictions ∧
    (processGroup o sport db (first :: rest)).err
      = (processGroup o sport db (first :: rest')).err ∧
    analyzeValues o sport first (first :: rest)
      = analyzeValues o sport first (first :: rest') := by
  obtain ⟨mt, hmt⟩ := Option.isSome_iff_exists.mp (hall first (by simp))
  have h1 := processGroup_spec o sport db first rest mt hmt hall
  have h2 := processGroup_spec o sport db first rest' mt hmt hall'
  have hv := analyzeValues_proj o sport first rest rest' hproj
  refine ⟨?_, ?_, hv⟩
  · rw [h1.2, h2.2, hv]
  · rw [h1.1, h2.1]

/-- The prediction values computed for the singleton group `[itemA]`. -/
def vA : PredVals :=
  (analyzeValues wOracle "NBA" itemA [itemA]).getD
    { model_probability := 0, value_score := 0, confidence_level := "",
      reasoning := [], is_recommended := false }

unseal Rat.mul Rat.add Rat.inv Rat.sub in
/-- Witness for C1 at the concrete group `[itemA]`. -/
theorem C1_witness :
    vA.model_probability =
      clamp01 (baseProbOf wOracle itemA
        + (wOracle.sentiment itemA.fixture_name
            (itemA.headlines.getD [])).sentiment_score * (5/100)
        + ((expertOf wOracle "NBA" itemA).confidence_score / 100) * (15/100)
        + (if itemA.selection = itemA.home_team
              ∧ (expertOf wOracle "NBA" itemA).h2h_analysis.home_field_advantage > 50
           then ((expertOf wOracle "NBA" itemA).h2h_analysis.home_field_advantage
                  - 50) / 1000
           else 0)) :=
  (C1_final_probability wOracle "NBA" emptyDb itemA [] "h2h" vA rfl
    (by decide) rfl).2

unseal Rat.mul Rat.add Rat.inv Rat.sub in
/-- Witness for C2 at the concrete item `itemA`. -/
theorem C2_witness :
    baseProbOf wOracle itemA
      = (if (wOracle.teamStats itemA.selection itemA.record).win_rate = 0
            ∧ (wOracle.teamStats (opponentOf itemA) none).win_rate = 0
         then 1/2
         else (wOracle.teamStats itemA.selection itemA.record).win_rate
           / ((wOracle.teamStats itemA.selection itemA.record).win_rate
              + (wOracle.teamStats (opponentOf itemA) none).win_rate)) :=
  (C2_base_probability wOracle itemA (by decide) (by decide)).1 rfl

unseal Rat.mul Rat.add Rat.inv Rat.sub in
/-- Witness for C3 at the concrete group `[itemBadPrice]` (price 60.0). -/
theorem C3_witness :
    (processGroup wOracle "NBA" emptyDb [itemBadPrice]).db.predictions
      = emptyDb.predictions :=
  (C3_data_quality_discard wOracle "NBA" emptyDb itemBadPrice [] [] 60
    (by decide) rfl (Or.inr (Or.inl (by norm_num)))).2.1

unseal Rat.mul Rat.add Rat.inv Rat.sub in
/-- Witness for C4: one concrete run from the empty database. -/
theorem C4_witness :
    AtMostOnePred (runMany wOracle [[("NBA", some [itemA, itemB])]] emptyDb) :=
  (C4_upsert_invariant wOracle [[("NBA", some [itemA, itemB])]] emptyDb
    (by simp [AtMostOnePred, emptyDb])).1

/-- Witness for C5 at a concrete instant and database. -/
theorem C5_witness :
    (staleClear 0 "NBA" emptyDb).fixtures = emptyDb.fixtures :=
  (C5_stale_clear 0 "NBA" emptyDb).2.2

unseal Rat.mul Rat.add Rat.inv Rat.sub in
/-- Witness for the amended C6 at a concrete failing group. -/
theorem C6_amended_witness :
    (processGroups wOracle "NBA" emptyDb ([itemA2bad] :: [[itemB]])).err
      = some (PyErr.keyError "market_type") :=
  (C6_amended wOracle "NBA" "X" emptyDb [itemA2bad] [[itemB]] [] []
    (PyErr.keyError "market_type") rfl).1

unseal Rat.mul Rat.add Rat.inv Rat.sub in
/-- Witness for the amended C7 at a concrete error-free run. -/
theorem C7_amended_witness :
    (runPipeline wOracle db7 [("NBA", some [itemA, itemB])]).tr.getLast?
      = some Ev.dbCommit :=
  ((C7_amended wOracle db7 [("NBA", some [itemA, itemB])]).2.2.1 rfl).1

/-- Witness for the amended C8 at a concrete draw of 0.7. -/
theorem C8_amended_witness :
    (getTeamStatsModel (7/10) 20 15 "TeamY" none).win_rate = 7/10 ∧
    (getTeamStatsModel (7/10) 20 15 "TeamY" (some "")).win_rate = 7/10 ∧
    (7/10 : ℚ) ≠ 1/2 ∧
    emptyInjuryReport.injured_players = [] :=
  C8_amended (7/10) 20 15 "TeamY" "" (by norm_num) (by norm_num) (by simp)

unseal Rat.mul Rat.add Rat.inv Rat.sub in
/-- Witness for C9 at the concrete price-less group `[itemNoPrice]`. -/
theorem C9_witness :
    (processGroup wOracle "NBA" emptyDb [itemNoPrice]).err = none :=
  (C9_no_price wOracle "NBA" emptyDb itemNoPrice [] "h2h" rfl (by decide) rfl).1

/-- A quote equal to `itemA2` in price and bookmaker but different in every
other field. -/
def itemA2alt : RawItem :=
  { itemA2 with
    fixture_name := "Q"
    market_type := some "spreads"
    point := some 3
    sport := "Other"
    league := "M"
    home_team := "Zulu"
    away_team := "Yyy"
    start_time := 999
    record := some "1-9"
    headlines := some ["x"] }

unseal Rat.mul Rat.add Rat.inv Rat.sub in
/-- Witness for C10: swapping the second record for one agreeing only in
price and bookmaker leaves the predictions table unchanged. -/
theorem C10_witness :
    (processGroup wOracle "NBA" emptyDb [itemA, itemA2]).db.predictions
      = (processGroup wOracle "NBA" emptyDb [itemA, itemA2alt]).db.predictions :=
  (C10_noninterference wOracle "NBA" emptyDb itemA [itemA2] [itemA2alt]
    (by decide) (by decide) (by decide)).1

end EdgeFinder
